import Mathlib

/-!
# Cynic: page behaviour controller (`src/index.js`)

A shallow embedding of the event handlers wired by the `DOMContentLoaded`
callback of `src/index.js`, and the properties of them that the
specification states.

Modelling conventions.

* JavaScript numbers are modelled exactly, as elements of a linearly ordered
  field `α` (`ℚ`, or `ℝ` where a square root is needed); IEEE-754 rounding is
  not modelled.  `Math.sqrt` is passed to the functions that call it as the
  argument `sqrt`; the theorems instantiate it with `Real.sqrt`.
* A `classList` is an ordered list of tokens with the `DOMTokenList`
  operations `contains`, `add`, `remove` and `toggle`.
* `NodeList.forEach` over distinct DOM nodes whose callback touches only the
  node it is called with is `List.map`.
* Each handler is a function from the state it reads to the state it writes.
-/

namespace Cynic

/-! ## DOM data model -/

/-- The `classList` of an element: a `DOMTokenList`, an ordered list of tokens. -/
structure ClassList where
  tokens : List String
  deriving DecidableEq, Repr

namespace ClassList

/-- `classList.contains(token)`. -/
def contains (c : ClassList) (token : String) : Bool :=
  c.tokens.contains token

/-- `classList.add(token)`: appends the token unless it is already present. -/
def add (c : ClassList) (token : String) : ClassList :=
  if c.contains token then c else ⟨c.tokens ++ [token]⟩

/-- `classList.remove(token)`: drops every occurrence of the token. -/
def remove (c : ClassList) (token : String) : ClassList :=
  ⟨c.tokens.filter (fun t => t != token)⟩

/-- `classList.toggle(token)`: removes the token when present, adds it otherwise. -/
def toggle (c : ClassList) (token : String) : ClassList :=
  if c.contains token then c.remove token else c.add token

end ClassList

/-- The result of `element.getBoundingClientRect()`. -/
structure DOMRect (α : Type) where
  left : α
  top : α
  width : α
  height : α

/-- An element of `hiddenTexts` (`document.querySelectorAll('[data-reveal]')`):
its bounding box in viewport coordinates and its class list. -/
structure Element (α : Type) where
  rect : DOMRect α
  classList : ClassList

/-- Whether the element carries the `revealed` class. -/
def Element.revealed {α : Type} (element : Element α) : Bool :=
  element.classList.contains "revealed"

/-! ## Easter egg: Konami code (`src/index.js`, lines 223-240) -/

/-- The constant `konamiCode`. -/
def konamiCode : List String :=
  ["ArrowUp", "ArrowUp", "ArrowDown", "ArrowDown", "ArrowLeft", "ArrowRight",
   "ArrowLeft", "ArrowRight", "b", "a"]

/-- The message written to the console when the easter egg fires. -/
def konamiMessage : String := "🔦 The lantern reveals all truths..."

/-- The state read and written by the `keydown` handler: the counter
`konamiIndex`, the elements of `hiddenTexts`, and the lines written with
`console.log` so far. -/
structure KonamiState (α : Type) where
  konamiIndex : Nat
  hiddenTexts : List (Element α)
  console : List String

/-- The `hiddenTexts.forEach` of the easter egg: add `revealed` to every element. -/
def revealAll {α : Type} (hiddenTexts : List (Element α)) : List (Element α) :=
  hiddenTexts.map (fun el => { el with classList := el.classList.add "revealed" })

/-- The `keydown` handler, called with `e.key`.  `konamiCode[konamiIndex]` is
`undefined` past the end of the array, which is equal to no key. -/
def keydown {α : Type} (key : String) (s : KonamiState α) : KonamiState α :=
  if some key = konamiCode[s.konamiIndex]? then
    let konamiIndex := s.konamiIndex + 1
    if konamiIndex = konamiCode.length then
      { konamiIndex := 0
        hiddenTexts := revealAll s.hiddenTexts
        console := s.console ++ [konamiMessage] }
    else
      { s with konamiIndex := konamiIndex }
  else
    { s with konamiIndex := 0 }

/-- A run of `keydown` events, in order. -/
def keydowns {α : Type} (keys : List String) (s : KonamiState α) : KonamiState α :=
  keys.foldl (fun st key => keydown key st) s

/-- The number of times the reveal-all branch has run: it writes exactly one
console line each time, and nothing else writes to the console. -/
def KonamiState.fired {α : Type} (s : KonamiState α) : Nat :=
  s.console.length

/-! ## Hidden text reveal (`src/index.js`, lines 67-86) -/

section Numeric

variable {α : Type} [LinearOrderedField α]

/-- The constant `REVEAL_DISTANCE`, in pixels. -/
def REVEAL_DISTANCE : α := 150

/-- `checkProximity(x, y)`: every element of `hiddenTexts` gets `revealed` when the
pointer is closer than `REVEAL_DISTANCE` to the centre of its bounding box, and loses
it otherwise. -/
def checkProximity (sqrt : α → α) (x y : α) (hiddenTexts : List (Element α)) :
    List (Element α) :=
  hiddenTexts.map (fun element =>
    let rect := element.rect
    let elementCenterX := rect.left + rect.width / 2
    let elementCenterY := rect.top + rect.height / 2
    let distance := sqrt ((x - elementCenterX) ^ 2 + (y - elementCenterY) ^ 2)
    if distance < REVEAL_DISTANCE then
      { element with classList := element.classList.add "revealed" }
    else
      { element with classList := element.classList.remove "revealed" })

/-! ## Mobile touch reveal (`src/index.js`, lines 103-117) -/

/-- A touch point of a touch event. -/
structure Touch (α : Type) where
  clientX : α
  clientY : α

/-- A `touchstart` event: its list `e.touches`. -/
structure TouchEvent (α : Type) where
  touches : List (Touch α)

/-- The `touchstart` handler.  With an empty `e.touches`, `touch` is `undefined` and the
first read of `touch.clientX` throws before any class list has been changed. -/
def touchstart (sqrt : α → α) (e : TouchEvent α) (hiddenTexts : List (Element α)) :
    List (Element α) :=
  match e.touches[0]? with
  | none => hiddenTexts
  | some touch =>
    hiddenTexts.map (fun element =>
      if element.classList.contains "hidden-text-inline" then
        let rect := element.rect
        let distance := sqrt
          ((touch.clientX - (rect.left + rect.width / 2)) ^ 2 +
           (touch.clientY - (rect.top + rect.height / 2)) ^ 2)
        if distance < 100 then
          { element with classList := element.classList.add "revealed" }
        else
          element
      else
        element)

/-! ## Lantern cursor (`src/index.js`, lines 22-61) -/

/-- The state of the desktop branch: the raw pointer position, the eased position,
the `left` and `top` of `lanternCursor.style` (in px), and the revealable elements. -/
structure CursorState (α : Type) where
  mouseX : α
  mouseY : α
  currentX : α
  currentY : α
  lanternLeft : α
  lanternTop : α
  hiddenTexts : List (Element α)

/-- The `mousemove` handler. -/
def mousemove (clientX clientY : α) (s : CursorState α) : CursorState α :=
  { s with mouseX := clientX, mouseY := clientY }

/-- One run of `animateCursor`, that is one animation frame.  The closing
`requestAnimationFrame(animateCursor)` schedules the next run on the state returned
here. -/
def animateCursor (sqrt : α → α) (s : CursorState α) : CursorState α :=
  let ease : α := 0.15
  let currentX := s.currentX + (s.mouseX - s.currentX) * ease
  let currentY := s.currentY + (s.mouseY - s.currentY) * ease
  { mouseX := s.mouseX
    mouseY := s.mouseY
    currentX := currentX
    currentY := currentY
    lanternLeft := currentX
    lanternTop := currentY
    hiddenTexts := checkProximity sqrt s.mouseX s.mouseY s.hiddenTexts }

/-- The state in which the first frame runs: all four coordinates are `0`. -/
def CursorState.initial (lanternLeft lanternTop : α) (hiddenTexts : List (Element α)) :
    CursorState α :=
  { mouseX := 0, mouseY := 0, currentX := 0, currentY := 0
    lanternLeft := lanternLeft, lanternTop := lanternTop, hiddenTexts := hiddenTexts }

/-! ## Smooth scroll for anchor links (`src/index.js`, lines 151-169) -/

/-- The outcome of `document.querySelector(selector)`: it throws on a selector that
does not parse, returns `null` when nothing matches, or returns an element, of which
the handler reads `getBoundingClientRect().top`. -/
inductive QueryResult (α : Type) where
  | syntaxError : QueryResult α
  | null : QueryResult α
  | element (top : α) : QueryResult α

/-- The argument of `window.scrollTo`. -/
structure ScrollToOptions (α : Type) where
  top : α
  behavior : String

/-- What a click on an anchor did: whether `e.preventDefault()` was called and the
scroll that was requested, if any. -/
structure AnchorClickResult (α : Type) where
  defaultPrevented : Bool
  scrollTo : Option (ScrollToOptions α)

/-- The `click` handler of an anchor whose `href` attribute is `href`, on a document
that answers `querySelector` and is scrolled to `pageYOffset`. -/
def anchorClick (querySelector : String → QueryResult α) (pageYOffset : α) (href : String) :
    AnchorClickResult α :=
  let targetId := href
  if targetId = "#" then
    { defaultPrevented := false, scrollTo := none }
  else
    match querySelector targetId with
    | QueryResult.element elementPosition =>
      let headerOffset : α := 80
      let offsetPosition := elementPosition + pageYOffset - headerOffset
      { defaultPrevented := true
        scrollTo := some { top := offsetPosition, behavior := "smooth" } }
    | _ => { defaultPrevented := false, scrollTo := none }

/-! ## Parallax effect on the hero image (`src/index.js`, lines 177-186) -/

/-- The value the handler writes to `heroImage.style.transform`: the template
`translateY(${translateY}px) scale(${scale})`. -/
structure Transform (α : Type) where
  translateY : α
  scale : α

/-- The `scroll` handler, as a function of `window.pageYOffset`, `window.innerHeight`
and the current `heroImage.style.transform` (`none` before the first write). -/
def scrollHandler (pageYOffset innerHeight : α) (transform : Option (Transform α)) :
    Option (Transform α) :=
  let scrolled := pageYOffset
  let rate := scrolled * 0.3
  if scrolled < innerHeight then
    some { translateY := rate, scale := 1 - scrolled * 0.0002 }
  else
    transform

end Numeric

/-! ## The document answering `querySelector`

The handler of an anchor passes its `href` to `document.querySelector`, so the href is
read as a CSS selector.  The platform function is modelled on selectors of the form
`#name`, where `name` consists of name code points only; every other selector is
answered by the argument `other`. -/

/-- An element of the document that has an `id` attribute: the id and the `top` of its
bounding box. -/
structure IdElement (α : Type) where
  id : String
  top : α

/-- The elements of the document that have an `id`, in tree order. -/
structure Document (α : Type) where
  elements : List (IdElement α)

/-- `document.getElementById(id)`: the first element whose id is `id`. -/
def Document.getElementById {α : Type} (doc : Document α) (id : String) :
    Option (IdElement α) :=
  doc.elements.find? (fun el => el.id == id)

/-- A name code point of CSS: a letter, a digit, `-`, `_`, or a code point from U+0080. -/
def isNameChar (c : Char) : Bool :=
  c.isAlphanum || c == '-' || c == '_' || decide (128 ≤ c.toNat)

/-- A name-start code point of CSS: a letter, `_`, or a code point from U+0080. -/
def isNameStartChar (c : Char) : Bool :=
  c.isAlpha || c == '_' || decide (128 ≤ c.toNat)

/-- Whether a sequence of code points is a CSS identifier without escapes: `--` followed
by name code points, or an optional `-`, a name-start code point, and name code points. -/
def isIdentifier (name : List Char) : Bool :=
  match name with
  | [] => false
  | c :: rest =>
    if c = '-' then
      match rest with
      | [] => false
      | d :: rest' => (d == '-' || isNameStartChar d) && rest'.all isNameChar
    else
      isNameStartChar c && rest.all isNameChar

/-- `document.querySelector(selector)` on the document `doc`.  For `#name` with `name`
made of name code points: when `name` is an identifier, the selector is an ID selector
and the result is the first element with that id, or `null`; when it is not (as for
`#123`, or the bare `#`), the selector does not parse and the call throws.  Any other
selector is answered by `other`. -/
def Document.querySelector {α : Type} (doc : Document α) (other : String → QueryResult α)
    (selector : String) : QueryResult α :=
  match selector.data with
  | [] => other selector
  | c :: name =>
    if c = '#' ∧ name.all isNameChar = true then
      if isIdentifier name then
        match doc.getElementById (String.mk name) with
        | some el => QueryResult.element el.top
        | none => QueryResult.null
      else
        QueryResult.syntaxError
    else
      other selector

/-! ## Mobile navigation (`src/index.js`, lines 124-145) -/

/-- The class lists of `navToggle` and `navLinks`. -/
structure NavState where
  navToggle : ClassList
  navLinks : ClassList
  deriving DecidableEq

/-- The pair (toggle active, menu active). -/
def NavState.flags (s : NavState) : Bool × Bool :=
  (s.navToggle.contains "active", s.navLinks.contains "active")

/-- The `click` handler of `navToggle`. -/
def navToggleClick (s : NavState) : NavState :=
  { navLinks := s.navLinks.toggle "active"
    navToggle := s.navToggle.toggle "active" }

/-- The `click` handler of each link inside `navLinks`. -/
def navLinkClick (s : NavState) : NavState :=
  { navLinks := s.navLinks.remove "active"
    navToggle := s.navToggle.remove "active" }

/-- The `click` handler of `document`; the arguments are `navToggle.contains(e.target)`
and `navLinks.contains(e.target)`. -/
def documentClick (inNavToggle inNavLinks : Bool) (s : NavState) : NavState :=
  if !inNavToggle && !inNavLinks then
    { navLinks := s.navLinks.remove "active"
      navToggle := s.navToggle.remove "active" }
  else
    s

/-! ## Fade-in on scroll (`src/index.js`, lines 197-212) -/

/-- An `IntersectionObserverEntry`: its target and its `isIntersecting` flag. -/
structure Entry (ι : Type) where
  target : ι
  isIntersecting : Bool

/-- The calls the observer callback makes. -/
inductive FadeCall (ι : Type) where
  | classListAdd (target : ι) : FadeCall ι
  | unobserve (target : ι) : FadeCall ι
  deriving DecidableEq

/-- The state of the fade-in feature: the targets `fadeObserver` observes, the class
list of every element, and the calls made by the callback so far, in order. -/
structure FadeState (ι : Type) where
  observed : List ι
  classList : ι → ClassList
  calls : List (FadeCall ι)

/-- The callback of `fadeObserver`, called with a batch of entries. -/
def fadeCallback {ι : Type} [DecidableEq ι] (entries : List (Entry ι)) (s : FadeState ι) :
    FadeState ι :=
  entries.foldl (fun st entry =>
    if entry.isIntersecting then
      { observed := st.observed.filter (fun t => t ≠ entry.target)
        classList := Function.update st.classList entry.target
          ((st.classList entry.target).add "fade-in-visible")
        calls := st.calls ++ [FadeCall.classListAdd entry.target,
                              FadeCall.unobserve entry.target] }
    else
      st) s

/-- The state after the `forEach` that registers the elements `els` with the observer. -/
def observeAll {ι : Type} (els : List ι) (classList : ι → ClassList) : FadeState ι :=
  { observed := els, classList := classList, calls := [] }

/-- The browser's side of the observer, as the specification models it: an entry is
delivered to the callback only while its target is still observed.  Each event reaches
the callback as a batch of one entry. -/
def deliver {ι : Type} [DecidableEq ι] (entry : Entry ι) (s : FadeState ι) : FadeState ι :=
  if entry.target ∈ s.observed then fadeCallback [entry] s else s

/-- A sequence of enter and exit events, delivered in order. -/
def deliverAll {ι : Type} [DecidableEq ι] (entries : List (Entry ι)) (s : FadeState ι) :
    FadeState ι :=
  entries.foldl (fun st entry => deliver entry st) s

/-- How many times `fade-in-visible` was added to `target`. -/
def FadeState.additions {ι : Type} [DecidableEq ι] (s : FadeState ι) (target : ι) : Nat :=
  s.calls.count (FadeCall.classListAdd target)

/-- How many times `unobserve(target)` was called. -/
def FadeState.unobserves {ι : Type} [DecidableEq ι] (s : FadeState ι) (target : ι) : Nat :=
  s.calls.count (FadeCall.unobserve target)

/-! ## Euclidean distance -/

/-- The Euclidean distance in the plane from the point `(x, y)` to the centre
`(left + width / 2, top + height / 2)` of the bounding box `rect` is strictly less
than `r`. -/
def centreWithin (r x y : ℝ) (rect : DOMRect ℝ) : Prop :=
  dist ((EuclideanSpace.equiv (Fin 2) ℝ).symm ![x, y])
    ((EuclideanSpace.equiv (Fin 2) ℝ).symm
      ![rect.left + rect.width / 2, rect.top + rect.height / 2]) < r

/-! ## Lemmas: Konami automaton -/

theorem konamiCode_length : konamiCode.length = 10 := rfl

/-- A key equal to the expected symbol, before the last position, advances the counter
and changes nothing else. -/
theorem keydown_advance {α : Type} (s : KonamiState α) (k : Nat) (hk : k + 1 < 10)
    (hs : s.konamiIndex = k) (key : String) (hkey : some key = konamiCode[k]?) :
    keydown key s = { s with konamiIndex := k + 1 } := by
  unfold keydown
  rw [hs, if_pos hkey]
  have : ¬ (k + 1 = konamiCode.length) := by rw [konamiCode_length]; omega
  simp only [this, if_false]

/-- The last symbol at the last position fires the easter egg. -/
theorem keydown_complete {α : Type} (s : KonamiState α) (hs : s.konamiIndex = 9) :
    keydown "a" s =
      { konamiIndex := 0, hiddenTexts := revealAll s.hiddenTexts,
        console := s.console ++ [konamiMessage] } := by
  unfold keydown
  rw [hs]
  rfl

/-- A key different from the expected symbol resets the counter and changes nothing else. -/
theorem keydown_reset {α : Type} (s : KonamiState α) (key : String)
    (hkey : some key ≠ konamiCode[s.konamiIndex]?) :
    keydown key s = { s with konamiIndex := 0 } := by
  unfold keydown
  rw [if_neg hkey]

theorem keydowns_append {α : Type} (xs ys : List String) (s : KonamiState α) :
    keydowns (xs ++ ys) s = keydowns ys (keydowns xs s) := by
  simp [keydowns, List.foldl_append]

/-- Feeding the next `n` expected symbols from position `k`, stopping short of the end,
only moves the counter. -/
theorem keydowns_initial {α : Type} (n k : Nat) (hn : k + n < 10) (s : KonamiState α)
    (hs : s.konamiIndex = k) :
    keydowns ((konamiCode.drop k).take n) s = { s with konamiIndex := k + n } := by
  induction n with
  | zero => subst hs; simp [keydowns]
  | succ n ih =>
    have hlt : n < (konamiCode.drop k).length := by
      simp [konamiCode_length]; omega
    rw [List.take_succ, keydowns_append, ih (by omega)]
    rw [List.getElem?_eq_getElem hlt]
    simp only [Option.toList, keydowns, List.foldl]
    rw [keydown_advance _ (k + n) (by omega) rfl]
    · rfl
    · rw [List.getElem_drop]
      rw [List.getElem?_eq_getElem]

theorem ClassList.contains_add (c : ClassList) (token : String) :
    (c.add token).contains token = true := by
  unfold ClassList.add
  by_cases h : c.contains token = true
  · rw [if_pos h]; exact h
  · rw [if_neg h]; simp [ClassList.contains]

/-- The reveal-all loop keeps every element, in order, with its bounding box, and
gives each one the `revealed` class. -/
theorem revealAll_forall₂ {α : Type} (hiddenTexts : List (Element α)) :
    List.Forall₂
      (fun el el' =>
        el'.rect = el.rect ∧ el'.classList = el.classList.add "revealed" ∧
        el'.revealed = true)
      hiddenTexts (revealAll hiddenTexts) := by
  unfold revealAll
  rw [List.forall₂_map_right_iff, List.forall₂_same]
  intro el _
  exact ⟨rfl, rfl, ClassList.contains_add _ _⟩

/-- The run of the remaining symbols from position `k`: no proper prefix fires, the
whole run fires once and returns to position `0`. -/
theorem keydowns_remainder {α : Type} (k : Nat) (hk : k < 10) (s : KonamiState α)
    (hs : s.konamiIndex = k) :
    (∀ n, n < 10 - k →
      keydowns ((konamiCode.drop k).take n) s = { s with konamiIndex := k + n }) ∧
    keydowns (konamiCode.drop k) s =
      { konamiIndex := 0, hiddenTexts := revealAll s.hiddenTexts,
        console := s.console ++ [konamiMessage] } := by
  refine ⟨fun n hn => keydowns_initial n k (by omega) s hs, ?_⟩
  have hlen : (konamiCode.drop k).length = (9 - k) + 1 := by
    simp [konamiCode_length]; omega
  have hsplit : konamiCode.drop k = (konamiCode.drop k).take (9 - k) ++ ["a"] := by
    interval_cases k <;> rfl
  rw [hsplit, keydowns_append, keydowns_initial (9 - k) k (by omega) s hs]
  simp only [keydowns, List.foldl]
  rw [keydown_complete _ (by show k + (9 - k) = 9; omega)]

theorem ClassList.contains_remove (c : ClassList) (token : String) :
    (c.remove token).contains token = false := by
  simp [ClassList.remove, ClassList.contains]

/-- The comparison made by the handlers, `Math.sqrt(dx ^ 2 + dy ^ 2) < r`, is the
comparison of the Euclidean distance to the centre of the box with `r`. -/
theorem sqrt_lt_iff_centreWithin (r x y : ℝ) (rect : DOMRect ℝ) :
    Real.sqrt ((x - (rect.left + rect.width / 2)) ^ 2 +
      (y - (rect.top + rect.height / 2)) ^ 2) < r ↔ centreWithin r x y rect := by
  unfold centreWithin
  rw [EuclideanSpace.dist_eq]
  simp [Fin.sum_univ_two, Real.dist_eq, sq_abs]

theorem hash_append_eq_hash_iff (id : String) : "#" ++ id = "#" ↔ id = "" := by
  constructor
  · intro h
    have hd := congrArg String.data h
    rw [String.data_append] at hd
    have : id.data = [] := by simpa using hd
    exact String.ext this
  · rintro rfl
    rfl

theorem ClassList.remove_of_not_contains (c : ClassList) (token : String)
    (h : c.contains token = false) : c.remove token = c := by
  cases c with
  | mk tokens =>
    simp only [ClassList.remove, ClassList.mk.injEq, List.filter_eq_self]
    intro t ht
    simp only [ClassList.contains] at h
    have hne : t ≠ token := by
      rintro rfl
      simp [ht] at h
    simpa using hne

theorem ClassList.remove_remove (c : ClassList) (token : String) :
    (c.remove token).remove token = c.remove token :=
  ClassList.remove_of_not_contains _ _ (ClassList.contains_remove c token)

theorem ClassList.contains_toggle (c : ClassList) (token : String) :
    (c.toggle token).contains token = !c.contains token := by
  unfold ClassList.toggle
  by_cases h : c.contains token = true
  · rw [if_pos h, ClassList.contains_remove, h]; rfl
  · rw [if_neg h, ClassList.contains_add]
    simp only [Bool.not_eq_true] at h
    rw [h]; rfl

/-! ## Lemmas: fade-in observer -/

section Fade

variable {ι : Type} [DecidableEq ι]

/-- One delivery, unfolded: the callback acts when the target is observed and the entry
is intersecting, and does nothing otherwise. -/
theorem deliver_eq (ev : Entry ι) (s : FadeState ι) :
    deliver ev s =
      if ev.target ∈ s.observed ∧ ev.isIntersecting = true then
        { observed := s.observed.filter (fun t => t ≠ ev.target)
          classList := Function.update s.classList ev.target
            ((s.classList ev.target).add "fade-in-visible")
          calls := s.calls ++ [FadeCall.classListAdd ev.target,
                                FadeCall.unobserve ev.target] }
      else s := by
  unfold deliver fadeCallback
  by_cases hobs : ev.target ∈ s.observed
  · by_cases hint : ev.isIntersecting = true
    · simp [hobs, hint]
    · simp [hobs, hint]
  · simp [hobs]

theorem deliverAll_cons (ev : Entry ι) (evs : List (Entry ι)) (s : FadeState ι) :
    deliverAll (ev :: evs) s = deliverAll evs (deliver ev s) := rfl

/-- A delivery that is not an enter event of `e` changes nothing about `e`. -/
theorem deliver_other (e : ι) (ev : Entry ι) (s : FadeState ι)
    (h : ev.target ≠ e ∨ ev.isIntersecting = false) :
    (deliver ev s).additions e = s.additions e ∧
    (deliver ev s).unobserves e = s.unobserves e ∧
    (deliver ev s).classList e = s.classList e ∧
    (e ∈ (deliver ev s).observed ↔ e ∈ s.observed) := by
  rw [deliver_eq]
  split_ifs with hc
  · have hne : ev.target ≠ e := by
      rcases h with h | h
      · exact h
      · rw [hc.2] at h; exact absurd h (by decide)
    refine ⟨?_, ?_, ?_, ?_⟩
    · simp [FadeState.additions, List.count_cons, hne]
    · simp [FadeState.unobserves, List.count_cons, hne]
    · exact Function.update_noteq (Ne.symm hne) _ _
    · simp [List.mem_filter, Ne.symm hne]
  · exact ⟨rfl, rfl, rfl, Iff.rfl⟩

/-- The enter event of an observed `e`: one addition, one `unobserve`, and `e` is no
longer observed. -/
theorem deliver_self (e : ι) (ev : Entry ι) (s : FadeState ι) (ht : ev.target = e)
    (hint : ev.isIntersecting = true) (hobs : e ∈ s.observed) :
    (deliver ev s).additions e = s.additions e + 1 ∧
    (deliver ev s).unobserves e = s.unobserves e + 1 ∧
    (deliver ev s).classList e = (s.classList e).add "fade-in-visible" ∧
    e ∉ (deliver ev s).observed := by
  subst ht
  rw [deliver_eq, if_pos ⟨hobs, hint⟩]
  refine ⟨?_, ?_, ?_, ?_⟩
  · simp [FadeState.additions, List.count_cons]
  · simp [FadeState.unobserves, List.count_cons]
  · exact Function.update_same _ _ _
  · simp [List.mem_filter]

/-- Once `e` is not observed, no sequence of deliveries changes anything about `e`. -/
theorem deliverAll_unobserved (e : ι) (evs : List (Entry ι)) :
    ∀ s : FadeState ι, e ∉ s.observed →
      (deliverAll evs s).additions e = s.additions e ∧
      (deliverAll evs s).unobserves e = s.unobserves e ∧
      (deliverAll evs s).classList e = s.classList e ∧
      e ∉ (deliverAll evs s).observed := by
  induction evs with
  | nil => intro s h; exact ⟨rfl, rfl, rfl, h⟩
  | cons ev evs ih =>
    intro s h
    rw [deliverAll_cons]
    by_cases ht : ev.target = e
    · have hs : deliver ev s = s := by
        rw [deliver_eq, if_neg]
        rintro ⟨hobs, _⟩
        exact h (ht ▸ hobs)
      rw [hs]
      exact ih s h
    · obtain ⟨h1, h2, h3, h4⟩ := deliver_other e ev s (Or.inl ht)
      obtain ⟨i1, i2, i3, i4⟩ := ih (deliver ev s) (fun hm => h (h4.mp hm))
      exact ⟨i1.trans h1, i2.trans h2, i3.trans h3, i4⟩

/-- Without an enter event of `e`, no sequence of deliveries changes anything about `e`. -/
theorem deliverAll_no_enter (e : ι) (evs : List (Entry ι)) :
    ∀ s : FadeState ι, (∀ ev ∈ evs, ev.target = e → ev.isIntersecting = false) →
      (deliverAll evs s).additions e = s.additions e ∧
      (deliverAll evs s).unobserves e = s.unobserves e ∧
      (deliverAll evs s).classList e = s.classList e ∧
      (e ∈ (deliverAll evs s).observed ↔ e ∈ s.observed) := by
  induction evs with
  | nil => intro s _; exact ⟨rfl, rfl, rfl, Iff.rfl⟩
  | cons ev evs ih =>
    intro s h
    rw [deliverAll_cons]
    have hev : ev.target ≠ e ∨ ev.isIntersecting = false := by
      by_cases ht : ev.target = e
      · exact Or.inr (h ev (List.mem_cons_self _ _) ht)
      · exact Or.inl ht
    obtain ⟨h1, h2, h3, h4⟩ := deliver_other e ev s hev
    obtain ⟨i1, i2, i3, i4⟩ :=
      ih (deliver ev s) (fun ev' hm => h ev' (List.mem_cons_of_mem _ hm))
    exact ⟨i1.trans h1, i2.trans h2, i3.trans h3, i4.trans h4⟩

/-- With `e` observed and an enter event of `e` in the sequence, the callback adds the
class once and calls `unobserve` once. -/
theorem deliverAll_enter (e : ι) (evs : List (Entry ι)) :
    ∀ s : FadeState ι, e ∈ s.observed →
      (∃ ev ∈ evs, ev.target = e ∧ ev.isIntersecting = true) →
      (deliverAll evs s).additions e = s.additions e + 1 ∧
      (deliverAll evs s).unobserves e = s.unobserves e + 1 ∧
      (deliverAll evs s).classList e = (s.classList e).add "fade-in-visible" ∧
      e ∉ (deliverAll evs s).observed := by
  induction evs with
  | nil => intro s _ h; obtain ⟨ev, hm, _⟩ := h; exact absurd hm (List.not_mem_nil _)
  | cons ev evs ih =>
    intro s hobs hex
    rw [deliverAll_cons]
    by_cases hself : ev.target = e ∧ ev.isIntersecting = true
    · obtain ⟨h1, h2, h3, h4⟩ := deliver_self e ev s hself.1 hself.2 hobs
      obtain ⟨i1, i2, i3, i4⟩ := deliverAll_unobserved e evs (deliver ev s) h4
      exact ⟨i1.trans h1, i2.trans h2, i3.trans h3, i4⟩
    · have hev : ev.target ≠ e ∨ ev.isIntersecting = false := by
        by_cases ht : ev.target = e
        · right
          cases hi : ev.isIntersecting with
          | false => rfl
          | true => exact absurd ⟨ht, hi⟩ hself
        · exact Or.inl ht
      obtain ⟨h1, h2, h3, h4⟩ := deliver_other e ev s hev
      have hex' : ∃ ev' ∈ evs, ev'.target = e ∧ ev'.isIntersecting = true := by
        obtain ⟨ev', hm, hp⟩ := hex
        rcases List.mem_cons.mp hm with rfl | hm'
        · exact absurd hp hself
        · exact ⟨ev', hm', hp⟩
      obtain ⟨i1, i2, i3, i4⟩ := ih (deliver ev s) (h4.mpr hobs) hex'
      exact ⟨i1.trans (by rw [h1]), i2.trans (by rw [h2]), i3.trans (by rw [h3]), i4⟩

theorem ClassList.contains_add_of_contains (c : ClassList) (token token' : String)
    (h : c.contains token = true) : (c.add token').contains token = true := by
  unfold ClassList.add
  split_ifs
  · exact h
  · simp only [ClassList.contains, List.contains_eq_any_beq, List.any_append] at h ⊢
    rw [h]; rfl

/-- The class list of `e` after a delivery still contains what it contained. -/
theorem deliver_contains (e : ι) (ev : Entry ι) (s : FadeState ι) (token : String)
    (h : (s.classList e).contains token = true) :
    ((deliver ev s).classList e).contains token = true := by
  rw [deliver_eq]
  split_ifs with hc
  · by_cases ht : ev.target = e
    · subst ht
      simp only [Function.update_same]
      exact ClassList.contains_add_of_contains _ _ _ h
    · simp only [Function.update_noteq (Ne.symm ht)]
      exact h
  · exact h

theorem deliverAll_contains (e : ι) (evs : List (Entry ι)) (token : String) :
    ∀ s : FadeState ι, (s.classList e).contains token = true →
      ((deliverAll evs s).classList e).contains token = true := by
  induction evs with
  | nil => intro s h; exact h
  | cons ev evs ih =>
    intro s h
    rw [deliverAll_cons]
    exact ih _ (deliver_contains e ev s token h)

end Fade

theorem hash_append_data (id : String) : ("#" ++ id).data = '#' :: id.data := by
  rw [String.data_append]
  rfl

theorem isNameChar_of_isNameStartChar (c : Char) (h : isNameStartChar c = true) :
    isNameChar c = true := by
  simp only [isNameStartChar, Bool.or_eq_true, decide_eq_true_eq] at h
  simp only [isNameChar, Bool.or_eq_true, decide_eq_true_eq]
  rcases h with (h | h) | h
  · left; left; left
    simp only [Char.isAlphanum, Bool.or_eq_true]
    exact Or.inl h
  · exact Or.inl (Or.inr h)
  · exact Or.inr h

/-- An identifier consists of name code points and is not empty. -/
theorem isIdentifier_all (name : List Char) (h : isIdentifier name = true) :
    name.all isNameChar = true ∧ name ≠ [] := by
  cases name with
  | nil => simp [isIdentifier] at h
  | cons c rest =>
    refine ⟨?_, List.cons_ne_nil _ _⟩
    unfold isIdentifier at h
    dsimp only at h
    split_ifs at h with hc
    · cases rest with
      | nil => simp at h
      | cons d rest' =>
        simp only [Bool.and_eq_true, Bool.or_eq_true, beq_iff_eq] at h
        have hd : isNameChar d = true := by
          rcases h.1 with hd | hd
          · subst hd; decide
          · exact isNameChar_of_isNameStartChar d hd
        have hcn : isNameChar c = true := by subst hc; decide
        simp only [List.all_cons, Bool.and_eq_true]
        exact ⟨hcn, hd, h.2⟩
    · simp only [Bool.and_eq_true] at h
      simp only [List.all_cons, Bool.and_eq_true]
      exact ⟨isNameChar_of_isNameStartChar c h.1, h.2⟩

/-- The answer of the document to `#id` when `id` consists of name code points. -/
theorem querySelector_hash {α : Type} (doc : Document α) (other : String → QueryResult α)
    (id : String) (hall : id.data.all isNameChar = true) :
    doc.querySelector other ("#" ++ id) =
      if isIdentifier id.data then
        match doc.getElementById id with
        | some el => QueryResult.element el.top
        | none => QueryResult.null
      else
        QueryResult.syntaxError := by
  unfold Document.querySelector
  rw [hash_append_data]
  simp only [hall, and_self, if_true]

/-! ## Theorems -/

/-- C1 (Konami detector, success).  From any progress index `k < 10`, feeding the
remaining symbols `konamiCode[k..9]` in order fires reveal-all exactly once: no proper
prefix of the run fires it or touches an element, the last key fires it, and the index
is `0` afterwards.  Firing keeps every revealable element, in order and with its
bounding box, and adds `revealed` to the class list of each one, so that each one
carries `revealed`.  The same holds for the full sequence fed right after a wrong key
has reset the counter. -/
theorem konami_success {α : Type} (k : Nat) (hk : k < 10) (s : KonamiState α)
    (hs : s.konamiIndex = k) :
    (∀ n, n < 10 - k →
      (keydowns ((konamiCode.drop k).take n) s).fired = s.fired ∧
      (keydowns ((konamiCode.drop k).take n) s).hiddenTexts = s.hiddenTexts) ∧
    (keydowns (konamiCode.drop k) s).fired = s.fired + 1 ∧
    List.Forall₂
      (fun el el' =>
        el'.rect = el.rect ∧ el'.classList = el.classList.add "revealed" ∧
        el'.revealed = true)
      s.hiddenTexts (keydowns (konamiCode.drop k) s).hiddenTexts ∧
    (keydowns (konamiCode.drop k) s).hiddenTexts.length = s.hiddenTexts.length ∧
    (keydowns (konamiCode.drop k) s).konamiIndex = 0 ∧
    (∀ wrong : String, konamiCode[k]? ≠ some wrong →
      (∀ n, n < 10 →
        (keydowns (wrong :: konamiCode.take n) s).fired = s.fired ∧
        (keydowns (wrong :: konamiCode.take n) s).hiddenTexts = s.hiddenTexts) ∧
      (keydowns (wrong :: konamiCode) s).fired = s.fired + 1 ∧
      List.Forall₂
        (fun el el' =>
          el'.rect = el.rect ∧ el'.classList = el.classList.add "revealed" ∧
          el'.revealed = true)
        s.hiddenTexts (keydowns (wrong :: konamiCode) s).hiddenTexts ∧
      (keydowns (wrong :: konamiCode) s).konamiIndex = 0) := by
  obtain ⟨hpre, hall⟩ := keydowns_remainder k hk s hs
  refine ⟨fun n hn => ?_, ?_, ?_, ?_, ?_, ?_⟩
  · rw [hpre n hn]; exact ⟨rfl, rfl⟩
  · rw [hall]; simp [KonamiState.fired]
  · rw [hall]; exact revealAll_forall₂ _
  · rw [hall]; exact (revealAll_forall₂ s.hiddenTexts).length_eq.symm
  · rw [hall]
  · intro wrong hwrong
    have hreset : keydown wrong s = { s with konamiIndex := 0 } :=
      keydown_reset s wrong (by rw [hs]; exact fun h => hwrong h.symm)
    obtain ⟨hpre0, hall0⟩ :=
      keydowns_remainder 0 (by decide) ({ s with konamiIndex := 0 } : KonamiState α) rfl
    have hcons : ∀ keys : List String,
        keydowns (wrong :: keys) s = keydowns keys { s with konamiIndex := 0 } := by
      intro keys
      simp only [keydowns, List.foldl, hreset]
    rw [List.drop_zero] at hall0
    refine ⟨fun n hn => ?_, ?_, ?_, ?_⟩
    · rw [hcons]
      have := hpre0 n (by omega)
      rw [List.drop_zero] at this
      rw [this]; exact ⟨rfl, rfl⟩
    · rw [hcons, hall0]; simp [KonamiState.fired]
    · rw [hcons, hall0]; exact revealAll_forall₂ _
    · rw [hcons, hall0]

/-- C2 (Konami detector, mismatch).  At any progress index `k`, in particular at
every `k < 10`, one keydown with a
key other than `konamiCode[k]` sets the index to `0`, does not fire reveal-all and
leaves every element as it was. -/
theorem konami_mismatch {α : Type} (k : Nat) (s : KonamiState α)
    (hs : s.konamiIndex = k) (key : String) (hkey : konamiCode[k]? ≠ some key) :
    (keydown key s).konamiIndex = 0 ∧
    (keydown key s).fired = s.fired ∧
    (keydown key s).hiddenTexts = s.hiddenTexts ∧
    (keydown key s).console = s.console := by
  have hreset : keydown key s = { s with konamiIndex := 0 } :=
    keydown_reset s key (by rw [hs]; exact fun h => hkey h.symm)
  rw [hreset]
  exact ⟨rfl, rfl, rfl, rfl⟩

/-- C10 (naive automaton).  The stream ArrowUp, ArrowUp, ArrowUp, ArrowDown, ArrowDown,
ArrowLeft, ArrowRight, ArrowLeft, ArrowRight, b, a contains the full sequence as a
contiguous run, yet fed from index `0` it never fires reveal-all: after every prefix of
the stream the console and the elements are as they were. -/
theorem konami_not_substring_matcher {α : Type} (hiddenTexts : List (Element α))
    (console : List String) (n : Nat) :
    konamiCode <:+: "ArrowUp" :: konamiCode ∧
    ("ArrowUp" :: konamiCode).take 3 = ["ArrowUp", "ArrowUp", "ArrowUp"] ∧
    (keydowns (("ArrowUp" :: konamiCode).take n) ⟨0, hiddenTexts, console⟩).fired =
      console.length ∧
    (keydowns (("ArrowUp" :: konamiCode).take n) ⟨0, hiddenTexts, console⟩).hiddenTexts =
      hiddenTexts := by
  refine ⟨⟨["ArrowUp"], [], rfl⟩, rfl, ?_⟩
  have hmin : ("ArrowUp" :: konamiCode).take n = ("ArrowUp" :: konamiCode).take (min n 11) := by
    rcases Nat.lt_or_ge n 11 with h | h
    · rw [Nat.min_eq_left (by omega)]
    · rw [Nat.min_eq_right h, List.take_of_length_le (by simpa [konamiCode_length] using h)]
      rfl
  rw [hmin]
  have hle : min n 11 ≤ 11 := Nat.min_le_right _ _
  generalize min n 11 = m at hle
  interval_cases m <;>
    simp [keydowns, keydown, konamiCode, KonamiState.fired]

/-- Witness for C1: from index 3, with one unrevealed element, which is kept and ends
up with the class list `hidden-text, revealed`. -/
theorem konami_success_witness :
    (3 : Nat) < 10 ∧
    (keydowns (konamiCode.drop 3)
      (⟨3, [⟨⟨0, 0, 10, 10⟩, ⟨["hidden-text"]⟩⟩], []⟩ : KonamiState ℚ)).fired = 0 + 1 ∧
    List.Forall₂
      (fun (el el' : Element ℚ) =>
        el'.rect = el.rect ∧ el'.classList = el.classList.add "revealed" ∧
        el'.revealed = true)
      [⟨⟨0, 0, 10, 10⟩, ⟨["hidden-text"]⟩⟩]
      (keydowns (konamiCode.drop 3)
        (⟨3, [⟨⟨0, 0, 10, 10⟩, ⟨["hidden-text"]⟩⟩], []⟩ : KonamiState ℚ)).hiddenTexts ∧
    (keydowns (konamiCode.drop 3)
      (⟨3, [⟨⟨0, 0, 10, 10⟩, ⟨["hidden-text"]⟩⟩], []⟩ : KonamiState ℚ)).hiddenTexts.map
        (fun el => el.classList.tokens) = [["hidden-text", "revealed"]] ∧
    (keydowns (konamiCode.drop 3)
      (⟨3, [⟨⟨0, 0, 10, 10⟩, ⟨["hidden-text"]⟩⟩], []⟩ : KonamiState ℚ)).konamiIndex = 0 :=
  ⟨by decide,
   (konami_success 3 (by decide) ⟨3, [⟨⟨0, 0, 10, 10⟩, ⟨["hidden-text"]⟩⟩], []⟩ rfl).2.1,
   (konami_success 3 (by decide) ⟨3, [⟨⟨0, 0, 10, 10⟩, ⟨["hidden-text"]⟩⟩], []⟩ rfl).2.2.1,
   by decide,
   (konami_success 3 (by decide)
      ⟨3, [⟨⟨0, 0, 10, 10⟩, ⟨["hidden-text"]⟩⟩], []⟩ rfl).2.2.2.2.1⟩

/-- Witness for C2: at index 2 the wrong key is ArrowUp, the first symbol. -/
theorem konami_mismatch_witness :
    konamiCode[2]? ≠ some "ArrowUp" ∧
    (keydown "ArrowUp" (⟨2, [], []⟩ : KonamiState ℚ)).konamiIndex = 0 :=
  ⟨by decide, (konami_mismatch 2 ⟨2, [], []⟩ rfl "ArrowUp" (by decide)).1⟩

/-- C3 (desktop proximity reveal).  After `checkProximity(x, y)` every revealable
element keeps its bounding box and carries `revealed` if and only if the Euclidean
distance from `(x, y)` to the centre of its box is strictly less than 150, whatever
its class list was before; at distance 150 or more it does not carry it. -/
theorem checkProximity_revealed_iff (x y : ℝ) (hiddenTexts : List (Element ℝ)) :
    List.Forall₂
      (fun element element' =>
        element'.rect = element.rect ∧
        (element'.revealed = true ↔ centreWithin 150 x y element.rect))
      hiddenTexts (checkProximity Real.sqrt x y hiddenTexts) := by
  unfold checkProximity
  rw [List.forall₂_map_right_iff, List.forall₂_same]
  intro element _
  have key := sqrt_lt_iff_centreWithin 150 x y element.rect
  dsimp only
  split_ifs with h
  · exact ⟨rfl, fun _ => key.mp h, fun _ => ClassList.contains_add _ _⟩
  · refine ⟨rfl, fun hr => ?_, fun hc => absurd (key.mpr hc) h⟩
    rw [Element.revealed, ClassList.contains_remove] at hr
    exact absurd hr (by decide)

/-- C4, as stated, fails: an element without the `hidden-text-inline` class whose
centre is at distance 0 from the touch point is not given `revealed`. -/
theorem touchstart_skips_non_inline :
    centreWithin 100 0 0 ⟨0, 0, 0, 0⟩ ∧
    (touchstart Real.sqrt ⟨[⟨0, 0⟩]⟩ [⟨⟨0, 0, 0, 0⟩, ⟨["hidden-text"]⟩⟩]).map
      Element.revealed = [false] := by
  constructor
  · rw [← sqrt_lt_iff_centreWithin]; norm_num
  · simp [touchstart, ClassList.contains, Element.revealed]

/-- C4, amended (touch-tap reveal).  On a touch-start whose first touch point is
`(x, y)`, the handler adds `revealed` to a revealable element if and only if the
element carries `hidden-text-inline` and the Euclidean distance from `(x, y)` to the
centre of its box is strictly less than 100; every other element is left exactly as it
was, and no element loses `revealed`. -/
theorem touchstart_revealed_iff (touch : Touch ℝ) (others : List (Touch ℝ))
    (hiddenTexts : List (Element ℝ)) :
    List.Forall₂
      (fun element element' =>
        element'.rect = element.rect ∧
        ((element.classList.contains "hidden-text-inline" = true ∧
            centreWithin 100 touch.clientX touch.clientY element.rect) →
          element'.classList = element.classList.add "revealed") ∧
        (¬ (element.classList.contains "hidden-text-inline" = true ∧
            centreWithin 100 touch.clientX touch.clientY element.rect) →
          element' = element) ∧
        (element'.revealed = true ↔
          element.revealed = true ∨
            (element.classList.contains "hidden-text-inline" = true ∧
              centreWithin 100 touch.clientX touch.clientY element.rect)) ∧
        (element.revealed = true → element'.revealed = true))
      hiddenTexts (touchstart Real.sqrt ⟨touch :: others⟩ hiddenTexts) := by
  unfold touchstart
  simp only [List.getElem?_cons_zero]
  rw [List.forall₂_map_right_iff, List.forall₂_same]
  intro element _
  have key := sqrt_lt_iff_centreWithin 100 touch.clientX touch.clientY element.rect
  split_ifs with hin h
  · have hadd : (element.classList.add "revealed").contains "revealed" = true :=
      ClassList.contains_add _ _
    exact ⟨rfl, fun _ => rfl, fun hn => absurd ⟨hin, key.mp h⟩ hn,
      ⟨fun _ => Or.inr ⟨hin, key.mp h⟩, fun _ => hadd⟩, fun _ => hadd⟩
  · exact ⟨rfl, fun hc => absurd (key.mpr hc.2) h, fun _ => rfl,
      ⟨fun hr => Or.inl hr, fun hr => hr.elim id (fun hc => absurd (key.mpr hc.2) h)⟩,
      id⟩
  · exact ⟨rfl, fun hc => absurd hc.1 hin, fun _ => rfl,
      ⟨fun hr => Or.inl hr, fun hr => hr.elim id (fun hc => absurd hc.1 hin)⟩, id⟩

/-- Witness for C4, amended: an inline element within 100 of the touch point. -/
theorem touchstart_revealed_iff_witness :
    (touchstart Real.sqrt ⟨[⟨3, 4⟩]⟩ [⟨⟨0, 0, 0, 0⟩, ⟨["hidden-text-inline"]⟩⟩]).map
      Element.revealed = [true] := by
  have h := touchstart_revealed_iff ⟨3, 4⟩ [] [⟨⟨0, 0, 0, 0⟩, ⟨["hidden-text-inline"]⟩⟩]
  have hw : centreWithin 100 3 4 ⟨0, 0, 0, 0⟩ := by
    rw [← sqrt_lt_iff_centreWithin]
    have : Real.sqrt ((3 - (0 + 0 / 2)) ^ 2 + (4 - (0 + 0 / 2)) ^ 2) = 5 := by
      rw [show ((3 : ℝ) - (0 + 0 / 2)) ^ 2 + (4 - (0 + 0 / 2)) ^ 2 = 5 ^ 2 by norm_num]
      exact Real.sqrt_sq (by norm_num)
    rw [this]; norm_num
  generalize touchstart Real.sqrt ⟨[⟨3, 4⟩]⟩ [⟨⟨0, 0, 0, 0⟩, ⟨["hidden-text-inline"]⟩⟩] = out
    at h ⊢
  cases h with
  | cons hhead htail =>
    cases htail
    have := hhead.2.2.2.1.mpr (Or.inr ⟨by decide, hw⟩)
    simpa using this

/-- Witness for C3: a revealed element whose centre is at distance exactly 150 from the
pointer is unmarked. -/
theorem checkProximity_revealed_iff_witness :
    ¬ centreWithin 150 150 0 ⟨0, 0, 0, 0⟩ ∧
    (checkProximity Real.sqrt 150 0 [⟨⟨0, 0, 0, 0⟩, ⟨["revealed"]⟩⟩]).map
      Element.revealed = [false] := by
  have h := checkProximity_revealed_iff 150 0 [⟨⟨0, 0, 0, 0⟩, ⟨["revealed"]⟩⟩]
  have hw : ¬ centreWithin 150 150 0 ⟨0, 0, 0, 0⟩ := by
    rw [← sqrt_lt_iff_centreWithin]
    have : Real.sqrt ((150 - (0 + 0 / 2)) ^ 2 + (0 - (0 + 0 / 2)) ^ 2) = 150 := by
      rw [show ((150 : ℝ) - (0 + 0 / 2)) ^ 2 + (0 - (0 + 0 / 2)) ^ 2 = 150 ^ 2 by norm_num]
      exact Real.sqrt_sq (by norm_num)
    rw [this]; norm_num
  refine ⟨hw, ?_⟩
  generalize checkProximity Real.sqrt 150 0 [⟨⟨0, 0, 0, 0⟩, ⟨["revealed"]⟩⟩] = out at h ⊢
  cases h with
  | cons hhead htail =>
    cases htail
    have hn : ¬ (_ = true) := fun hr => hw (hhead.2.mp hr)
    simpa using hn

/-- C5, as stated, fails: in the state the first frame runs in, current equals target,
and the distance between them does not strictly decrease. -/
theorem animateCursor_no_decrease_at_target :
    ¬ (|(animateCursor (fun v : ℚ => v) (CursorState.initial 0 0 [])).currentX -
          (CursorState.initial (0 : ℚ) 0 []).mouseX| <
        |(CursorState.initial (0 : ℚ) 0 []).currentX -
          (CursorState.initial (0 : ℚ) 0 []).mouseX|) := by
  simp [animateCursor, CursorState.initial]

/-- C5, amended (cursor easing).  With the target left where it is, one frame maps
current to current + (target - current) * 0.15 on each axis and writes it to the
lantern's position, so the new offset is 0.85 times the old one: on an axis where
current differs from the target, |current - target| strictly decreases; on an axis
where they are equal, current stays on the target; and the sign of target - current is
never reversed. -/
theorem animateCursor_eases {α : Type} [LinearOrderedField α] (sqrt : α → α)
    (s : CursorState α) :
    (animateCursor sqrt s).mouseX = s.mouseX ∧
    (animateCursor sqrt s).mouseY = s.mouseY ∧
    (animateCursor sqrt s).currentX = s.currentX + (s.mouseX - s.currentX) * 0.15 ∧
    (animateCursor sqrt s).currentY = s.currentY + (s.mouseY - s.currentY) * 0.15 ∧
    (animateCursor sqrt s).lanternLeft = (animateCursor sqrt s).currentX ∧
    (animateCursor sqrt s).lanternTop = (animateCursor sqrt s).currentY ∧
    s.mouseX - (animateCursor sqrt s).currentX = 0.85 * (s.mouseX - s.currentX) ∧
    s.mouseY - (animateCursor sqrt s).currentY = 0.85 * (s.mouseY - s.currentY) ∧
    (s.currentX ≠ s.mouseX →
      |(animateCursor sqrt s).currentX - s.mouseX| < |s.currentX - s.mouseX|) ∧
    (s.currentY ≠ s.mouseY →
      |(animateCursor sqrt s).currentY - s.mouseY| < |s.currentY - s.mouseY|) ∧
    (s.currentX = s.mouseX → (animateCursor sqrt s).currentX = s.mouseX) ∧
    (s.currentY = s.mouseY → (animateCursor sqrt s).currentY = s.mouseY) ∧
    SignType.sign (s.mouseX - (animateCursor sqrt s).currentX) =
      SignType.sign (s.mouseX - s.currentX) ∧
    SignType.sign (s.mouseY - (animateCursor sqrt s).currentY) =
      SignType.sign (s.mouseY - s.currentY) := by
  have hoff : ∀ c t : α, t - (c + (t - c) * 0.15) = 0.85 * (t - c) := by
    intro c t; norm_num; ring
  have habs : ∀ c t : α, c ≠ t → |c + (t - c) * 0.15 - t| < |c - t| := by
    intro c t hct
    have h1 : c + (t - c) * 0.15 - t = 0.85 * (c - t) := by norm_num; ring
    rw [h1, abs_mul, abs_of_pos (by norm_num : (0 : α) < 0.85)]
    have hpos : 0 < |c - t| := abs_pos.mpr (sub_ne_zero.mpr hct)
    have : (0.85 : α) < 1 := by norm_num
    nlinarith
  have hsign : ∀ c t : α,
      SignType.sign (t - (c + (t - c) * 0.15)) = SignType.sign (t - c) := by
    intro c t
    rw [hoff, sign_mul, sign_pos (by norm_num : (0 : α) < 0.85), one_mul]
  refine ⟨rfl, rfl, rfl, rfl, rfl, rfl, hoff _ _, hoff _ _, habs _ _, habs _ _, ?_, ?_,
    hsign _ _, hsign _ _⟩
  · intro h
    show s.currentX + (s.mouseX - s.currentX) * 0.15 = s.mouseX
    rw [h]; ring
  · intro h
    show s.currentY + (s.mouseY - s.currentY) * 0.15 = s.mouseY
    rw [h]; ring

/-- Witness for C5, amended: current 0 and target 100 on the x axis. -/
theorem animateCursor_eases_witness :
    (0 : ℚ) ≠ 100 ∧
    |(animateCursor (fun v : ℚ => v) ⟨100, 0, 0, 0, 0, 0, []⟩).currentX - 100| < |0 - 100| :=
  ⟨by norm_num,
   (animateCursor_eases (fun v : ℚ => v) ⟨100, 0, 0, 0, 0, 0, []⟩).2.2.2.2.2.2.2.2.1
     (by norm_num)⟩

/-- C6, as stated, fails: the document has an element with id `123` at vertical
position 500, yet a click on an anchor with `href="#123"` at scroll offset 0 neither
cancels the default action nor requests a scroll, because `#123` is not a selector. -/
theorem anchorClick_existing_id_not_scrolled :
    ((⟨[⟨"123", 500⟩]⟩ : Document ℚ).getElementById "123").map (fun el => el.top) =
      some 500 ∧
    (anchorClick ((⟨[⟨"123", 500⟩]⟩ : Document ℚ).querySelector
      (fun _ => QueryResult.null)) 0 "#123").defaultPrevented = false ∧
    ((anchorClick ((⟨[⟨"123", 500⟩]⟩ : Document ℚ).querySelector
      (fun _ => QueryResult.null)) 0 "#123").scrollTo.map (fun o => o.top)) = none := by
  refine ⟨by decide, ?_, ?_⟩
  · rfl
  · rfl

/-- C6, amended (smooth anchor scroll).  A click on an anchor whose href is `#` followed
by a non-empty id, at scroll offset `s`: when `document.querySelector`, given the href
as a selector, returns an element with viewport top `t`, the default action is
cancelled and a smooth scroll to exactly `t + s - 80` is requested (420 for `t = 500`,
`s = 0`); that is the case when the id is a CSS identifier and the first element with
that id has top `t`.  When the href is the bare `#`, or `querySelector` returns `null`
or throws, no scroll is requested and the default action is not cancelled; that is the
case when the id is an identifier that no element has, and when the id consists of name
code points but is not an identifier, whether or not an element has that id. -/
theorem anchorClick_scroll_target {α : Type} [LinearOrderedField α]
    (querySelector : String → QueryResult α) (doc : Document α)
    (other : String → QueryResult α) (s : α) :
    (∀ (id : String) (t : α), id ≠ "" →
      querySelector ("#" ++ id) = QueryResult.element t →
      anchorClick querySelector s ("#" ++ id) =
        { defaultPrevented := true
          scrollTo := some { top := t + s - 80, behavior := "smooth" } }) ∧
    (∀ (id : String), querySelector ("#" ++ id) = QueryResult.element 500 → id ≠ "" →
      ((anchorClick querySelector 0 ("#" ++ id)).scrollTo.map (fun o => o.top)) =
        some 420) ∧
    anchorClick querySelector s "#" = { defaultPrevented := false, scrollTo := none } ∧
    (∀ (id : String), (∀ t : α, querySelector ("#" ++ id) ≠ QueryResult.element t) →
      anchorClick querySelector s ("#" ++ id) =
        { defaultPrevented := false, scrollTo := none }) ∧
    (∀ (id : String) (el : IdElement α), isIdentifier id.data = true →
      doc.getElementById id = some el →
      anchorClick (doc.querySelector other) s ("#" ++ id) =
        { defaultPrevented := true
          scrollTo := some { top := el.top + s - 80, behavior := "smooth" } }) ∧
    (∀ (id : String), isIdentifier id.data = true → doc.getElementById id = none →
      anchorClick (doc.querySelector other) s ("#" ++ id) =
        { defaultPrevented := false, scrollTo := none }) ∧
    (∀ (id : String), id.data.all isNameChar = true → isIdentifier id.data = false →
      anchorClick (doc.querySelector other) s ("#" ++ id) =
        { defaultPrevented := false, scrollTo := none }) := by
  have hfound : ∀ (q : String → QueryResult α) (id : String) (t s : α), id ≠ "" →
      q ("#" ++ id) = QueryResult.element t →
      anchorClick q s ("#" ++ id) =
        { defaultPrevented := true
          scrollTo := some { top := t + s - 80, behavior := "smooth" } } := by
    intro q id t s hid hq
    have hne : ¬ ("#" ++ id = "#") := fun h => hid ((hash_append_eq_hash_iff id).mp h)
    unfold anchorClick
    simp only [hne, if_false, hq]
  have hnone : ∀ (q : String → QueryResult α) (id : String),
      (∀ t : α, q ("#" ++ id) ≠ QueryResult.element t) →
      anchorClick q s ("#" ++ id) = { defaultPrevented := false, scrollTo := none } := by
    intro q id hq
    unfold anchorClick
    dsimp only
    split_ifs with h
    · rfl
    · cases hres : q ("#" ++ id) with
      | syntaxError => rfl
      | null => rfl
      | element t => exact absurd hres (hq t)
  refine ⟨fun id t hid hq => hfound querySelector id t s hid hq, ?_, ?_,
    hnone querySelector, ?_, ?_, ?_⟩
  · intro id hq hid
    rw [hfound querySelector id 500 0 hid hq]
    simp only [Option.map_some']
    norm_num
  · unfold anchorClick
    simp
  · intro id el hident hget
    have hid : id ≠ "" := by
      intro h
      exact (isIdentifier_all id.data hident).2 (by rw [h])
    apply hfound (doc.querySelector other) id el.top s hid
    rw [querySelector_hash doc other id (isIdentifier_all id.data hident).1, hident, hget]
    rfl
  · intro id hident hget
    apply hnone
    intro t
    rw [querySelector_hash doc other id (isIdentifier_all id.data hident).1, hident, hget]
    exact fun h => QueryResult.noConfusion h
  · intro id hall hnot
    apply hnone
    intro t
    rw [querySelector_hash doc other id hall, hnot]
    exact fun h => QueryResult.noConfusion h

/-- Witness for C6, amended: `href="#team"`, an element with id `team` at vertical
position 500, scroll offset 0; the requested target is 500 + 0 - 80. -/
theorem anchorClick_scroll_target_witness :
    isIdentifier "team".data = true ∧
    (⟨[⟨"hero", 0⟩, ⟨"team", 500⟩]⟩ : Document ℚ).getElementById "team" =
      some ⟨"team", 500⟩ ∧
    anchorClick ((⟨[⟨"hero", 0⟩, ⟨"team", 500⟩]⟩ : Document ℚ).querySelector
        (fun _ => QueryResult.null)) 0 ("#" ++ "team") =
      { defaultPrevented := true
        scrollTo := some { top := 500 + 0 - 80, behavior := "smooth" } } :=
  ⟨by decide, rfl,
   (anchorClick_scroll_target (fun _ => QueryResult.null)
      (⟨[⟨"hero", 0⟩, ⟨"team", 500⟩]⟩ : Document ℚ) (fun _ => QueryResult.null)
      0).2.2.2.2.1 "team" ⟨"team", 500⟩ (by decide) rfl⟩

/-- C7 (navigation menu).  The close operation, run by the handler of a menu link (also
followed by the document handler the same click reaches) or by the document handler on
a click outside both the toggle and the menu, yields the flags (false, false) from every
state; applying it twice equals applying it once; on a closed state it changes nothing;
and a click on the toggle control, which reaches the toggle handler and then the
document handler, flips both flags. -/
theorem nav_close_idempotent (s : NavState) (inNavToggle inNavLinks : Bool) :
    (navLinkClick s).flags = (false, false) ∧
    (documentClick false false s).flags = (false, false) ∧
    documentClick inNavToggle true (navLinkClick s) = navLinkClick s ∧
    navLinkClick (navLinkClick s) = navLinkClick s ∧
    documentClick false false (documentClick false false s) = documentClick false false s ∧
    (s.flags = (false, false) → navLinkClick s = s ∧ documentClick false false s = s) ∧
    (navToggleClick s).flags = (!s.flags.1, !s.flags.2) ∧
    (documentClick true inNavLinks (navToggleClick s)).flags = (!s.flags.1, !s.flags.2) := by
  have hdoc : ∀ t : NavState, documentClick false false t = navLinkClick t := fun _ => rfl
  have hflags : ∀ t : NavState, (navLinkClick t).flags = (false, false) := by
    intro t
    simp only [NavState.flags, navLinkClick, ClassList.contains_remove]
  have hidem : ∀ t : NavState, navLinkClick (navLinkClick t) = navLinkClick t := by
    intro t
    simp only [navLinkClick, ClassList.remove_remove]
  have htoggle : (navToggleClick s).flags = (!s.flags.1, !s.flags.2) := by
    simp only [NavState.flags, navToggleClick, ClassList.contains_toggle]
  refine ⟨hflags s, ?_, ?_, hidem s, ?_, ?_, htoggle, ?_⟩
  · rw [hdoc]; exact hflags s
  · cases inNavToggle <;> rfl
  · rw [hdoc, hdoc]; exact hidem s
  · intro h
    have h1 : s.navToggle.contains "active" = false := congrArg Prod.fst h
    have h2 : s.navLinks.contains "active" = false := congrArg Prod.snd h
    have hclose : navLinkClick s = s := by
      cases s with
      | mk navToggle navLinks =>
        simp only [navLinkClick, NavState.mk.injEq]
        exact ⟨ClassList.remove_of_not_contains _ _ h1,
          ClassList.remove_of_not_contains _ _ h2⟩
    exact ⟨hclose, by rw [hdoc]; exact hclose⟩
  · have : documentClick true inNavLinks (navToggleClick s) = navToggleClick s := rfl
    rw [this]; exact htoggle

/-- Witness for C7: a click outside on a closed menu that carries other classes. -/
theorem nav_close_idempotent_witness :
    (⟨⟨["nav-toggle"]⟩, ⟨["nav-links"]⟩⟩ : NavState).flags = (false, false) ∧
    documentClick false false ⟨⟨["nav-toggle"]⟩, ⟨["nav-links"]⟩⟩ =
      ⟨⟨["nav-toggle"]⟩, ⟨["nav-links"]⟩⟩ :=
  ⟨by decide,
   ((nav_close_idempotent ⟨⟨["nav-toggle"]⟩, ⟨["nav-links"]⟩⟩ false false).2.2.2.2.2.1
      (by decide)).2⟩

/-- C8, as stated, fails: an observed element that only receives an exit event gets no
class addition and no `unobserve` call. -/
theorem fade_in_exit_only_adds_nothing :
    (deliverAll [⟨0, false⟩] (observeAll [(0 : Nat)] (fun _ => ⟨[]⟩))).additions 0 ≠ 1 ∧
    (deliverAll [⟨0, false⟩] (observeAll [(0 : Nat)] (fun _ => ⟨[]⟩))).unobserves 0 ≠ 1 := by
  decide

/-- C8, amended (fade-in is one-shot).  With the observer delivering entries only for
targets it still observes, for every observed element and every sequence of enter and
exit events: if the sequence contains an enter event of the element, `fade-in-visible`
is added exactly once, `unobserve` is called exactly once, the element ends up with the
class and unobserved; if it contains none, nothing is added and nothing unobserved.  In
either case at most once; the class is never removed by any later events; and an entry
with `isIntersecting = false` changes nothing. -/
theorem fade_in_one_shot {ι : Type} [DecidableEq ι] (els : List ι)
    (classList : ι → ClassList) (events : List (Entry ι)) (e : ι) :
    ((deliverAll events (observeAll els classList)).additions e ≤ 1 ∧
      (deliverAll events (observeAll els classList)).unobserves e ≤ 1) ∧
    (e ∈ els → (∃ ev ∈ events, ev.target = e ∧ ev.isIntersecting = true) →
      (deliverAll events (observeAll els classList)).additions e = 1 ∧
      (deliverAll events (observeAll els classList)).unobserves e = 1 ∧
      ((deliverAll events (observeAll els classList)).classList e).contains
        "fade-in-visible" = true ∧
      e ∉ (deliverAll events (observeAll els classList)).observed) ∧
    ((∀ ev ∈ events, ev.target = e → ev.isIntersecting = false) →
      (deliverAll events (observeAll els classList)).additions e = 0 ∧
      (deliverAll events (observeAll els classList)).unobserves e = 0 ∧
      (deliverAll events (observeAll els classList)).classList e = classList e) ∧
    (∀ (s : FadeState ι) (later : List (Entry ι)),
      (s.classList e).contains "fade-in-visible" = true →
      ((deliverAll later s).classList e).contains "fade-in-visible" = true) ∧
    (∀ (s : FadeState ι) (target : ι), deliver ⟨target, false⟩ s = s) := by
  have hinit_add : (observeAll els classList).additions e = 0 := rfl
  have hinit_un : (observeAll els classList).unobserves e = 0 := rfl
  have henter : e ∈ els → (∃ ev ∈ events, ev.target = e ∧ ev.isIntersecting = true) →
      (deliverAll events (observeAll els classList)).additions e = 1 ∧
      (deliverAll events (observeAll els classList)).unobserves e = 1 ∧
      ((deliverAll events (observeAll els classList)).classList e).contains
        "fade-in-visible" = true ∧
      e ∉ (deliverAll events (observeAll els classList)).observed := by
    intro hobs hex
    obtain ⟨h1, h2, h3, h4⟩ := deliverAll_enter e events (observeAll els classList) hobs hex
    refine ⟨by rw [h1, hinit_add], by rw [h2, hinit_un], ?_, h4⟩
    rw [h3]; exact ClassList.contains_add _ _
  have hnone : (∀ ev ∈ events, ev.target = e → ev.isIntersecting = false) →
      (deliverAll events (observeAll els classList)).additions e = 0 ∧
      (deliverAll events (observeAll els classList)).unobserves e = 0 ∧
      (deliverAll events (observeAll els classList)).classList e = classList e := by
    intro hno
    obtain ⟨h1, h2, h3, _⟩ := deliverAll_no_enter e events (observeAll els classList) hno
    exact ⟨by rw [h1, hinit_add], by rw [h2, hinit_un], h3⟩
  refine ⟨?_, henter, hnone, ?_, ?_⟩
  · by_cases hex : ∃ ev ∈ events, ev.target = e ∧ ev.isIntersecting = true
    · by_cases hobs : e ∈ els
      · obtain ⟨h1, h2, _, _⟩ := henter hobs hex
        exact ⟨h1.le, h2.le⟩
      · obtain ⟨h1, h2, _, _⟩ :=
          deliverAll_unobserved e events (observeAll els classList) hobs
        exact ⟨by rw [h1, hinit_add]; exact Nat.zero_le _,
          by rw [h2, hinit_un]; exact Nat.zero_le _⟩
    · have hno : ∀ ev ∈ events, ev.target = e → ev.isIntersecting = false := by
        intro ev hm ht
        cases hi : ev.isIntersecting with
        | false => rfl
        | true => exact absurd ⟨ev, hm, ht, hi⟩ hex
      obtain ⟨h1, h2, _⟩ := hnone hno
      exact ⟨by rw [h1]; exact Nat.zero_le _, by rw [h2]; exact Nat.zero_le _⟩
  · intro s later h
    exact deliverAll_contains e later "fade-in-visible" s h
  · intro s target
    rw [deliver_eq, if_neg]
    rintro ⟨_, h⟩
    exact Bool.false_ne_true h

/-- Witness for C8, amended: enter, exit, enter gives one addition and one `unobserve`. -/
theorem fade_in_one_shot_witness :
    (0 : Nat) ∈ [0, 1] ∧
    (∃ ev ∈ [(⟨0, true⟩ : Entry Nat), ⟨0, false⟩, ⟨0, true⟩],
      ev.target = 0 ∧ ev.isIntersecting = true) ∧
    (deliverAll [⟨0, true⟩, ⟨0, false⟩, ⟨0, true⟩]
      (observeAll [0, 1] (fun _ => ⟨[]⟩))).additions 0 = 1 ∧
    (deliverAll [⟨0, true⟩, ⟨0, false⟩, ⟨0, true⟩]
      (observeAll [0, 1] (fun _ => ⟨[]⟩))).unobserves 0 = 1 :=
  ⟨by decide, ⟨⟨0, true⟩, by simp, rfl, rfl⟩,
   ((fade_in_one_shot [0, 1] (fun _ => ⟨[]⟩) [⟨0, true⟩, ⟨0, false⟩, ⟨0, true⟩] 0).2.1
      (by decide) ⟨⟨0, true⟩, by simp, rfl, rfl⟩).1,
   ((fade_in_one_shot [0, 1] (fun _ => ⟨[]⟩) [⟨0, true⟩, ⟨0, false⟩, ⟨0, true⟩] 0).2.1
      (by decide) ⟨⟨0, true⟩, by simp, rfl, rfl⟩).2.1⟩

/-- C9 (parallax).  On a scroll event at scroll offset `s` with viewport height `h`:
if `s < h` the transform of the hero image is set to the translation `0.3 * s` and the
scale `1 - 0.0002 * s`; if `s ≥ h` the transform is left exactly as it was. -/
theorem scrollHandler_parallax {α : Type} [LinearOrderedField α] (s h : α)
    (transform : Option (Transform α)) :
    (s < h →
      scrollHandler s h transform =
        some { translateY := 0.3 * s, scale := 1 - 0.0002 * s }) ∧
    (h ≤ s → scrollHandler s h transform = transform) := by
  constructor
  · intro hlt
    unfold scrollHandler
    simp only [hlt, if_true, mul_comm]
  · intro hge
    unfold scrollHandler
    simp only [not_lt.mpr hge, if_false]

/-- Witness for C9: offset 100 in a viewport of height 800, then offset 900, where the
value written at offset 100 stays. -/
theorem scrollHandler_parallax_witness :
    (100 : ℚ) < 800 ∧ (800 : ℚ) ≤ 900 ∧
    scrollHandler (100 : ℚ) 800 none =
      some { translateY := 0.3 * 100, scale := 1 - 0.0002 * 100 } ∧
    scrollHandler (900 : ℚ) 800 (some { translateY := 0.3 * 100, scale := 1 - 0.0002 * 100 }) =
      some { translateY := 0.3 * 100, scale := 1 - 0.0002 * 100 } :=
  ⟨by norm_num, by norm_num,
   (scrollHandler_parallax (100 : ℚ) 800 none).1 (by norm_num),
   (scrollHandler_parallax (900 : ℚ) 800 _).2 (by norm_num)⟩

end Cynic
